import Mathlib

/-!
# Verification of the EDINET XBRL presentation-tree walker

A shallow embedding of `src/arelle_tools.py`: the presentation-order,
current-year-consolidated fact extractor.  Python strings are Lean `String`s,
Python `None` is `Option.none`, Python dicts are association lists with
insertion-order-preserving overwrite, floats used as presentation-arc orders
are embedded as `Rat`, and the unbounded recursions of the source (the
presentation-tree walk and the axis/member traversal) are made total with an
explicit fuel parameter; every theorem below either quantifies over the fuel
or fixes a fuel large enough for the concrete document at hand.
-/

namespace ArelleTools

/-! ## Character-list string helpers

The source uses Python `re`/`html`/`str` primitives.  They are embedded as
structurally recursive functions over `List Char` so that every definition
evaluates by kernel reduction.
-/

/-- Python `s.split(sep)` (with non-empty `sep`), fuelled by the input length. -/
def splitOnGo (sep : List Char) : Nat → List Char → List Char → List (List Char)
  | 0, acc, cs => [acc ++ cs]
  | _ + 1, acc, [] => [acc]
  | fuel + 1, acc, c :: rest =>
    if sep.isPrefixOf (c :: rest) then
      acc :: splitOnGo sep fuel [] ((c :: rest).drop sep.length)
    else
      splitOnGo sep fuel (acc ++ [c]) rest

/-- Python `s.split(sep)` for strings. -/
def pySplit (s sep : String) : List String :=
  (splitOnGo sep.toList (s.toList.length + 1) [] s.toList).map String.mk

/-- Python `needle in hay` (substring containment), via `split`. -/
def substrIn (needle hay : String) : Bool :=
  decide (1 < (pySplit hay needle).length)

/-- Python `s.startswith(pre)`. -/
def pyStartsWith (s pre : String) : Bool :=
  pre.toList.isPrefixOf s.toList

/-- Python `s.strip()` (whitespace at both ends). -/
def pyStrip (cs : List Char) : List Char :=
  ((cs.dropWhile Char.isWhitespace).reverse.dropWhile Char.isWhitespace).reverse

/-- Scan to the closing `>` of a tag-match attempt of the regex `<[^>]+>`. -/
def tagClose : List Char → Option (List Char)
  | [] => none
  | '>' :: rest => some rest
  | _ :: rest => tagClose rest

/-- After `<`: require at least one non-`>` character before the closing `>`;
returns the remainder after the matched tag, or `none` when no tag matches. -/
def tagTail : List Char → Option (List Char)
  | [] => none
  | '>' :: _ => none
  | _ :: rest => tagClose rest

/-- `_TAG_RE.search(s)` for `_TAG_RE = re.compile(r"<[^>]+>")`. -/
def hasMarkup : List Char → Bool
  | [] => false
  | '<' :: rest => (tagTail rest).isSome || hasMarkup rest
  | _ :: rest => hasMarkup rest

/-- `_TAG_RE.sub("", s)`: remove every (leftmost, non-overlapping) match of
`<[^>]+>`.  A buffering state machine equivalent to the regex substitution:
`none` = outside a candidate tag, `some buf` = inside a candidate begun by the
buffered `<`. -/
def stripTagsGo : List Char → Option (List Char) → List Char
  | [], none => []
  | [], some buf => buf
  | c :: rest, none =>
    if c = '<' then stripTagsGo rest (some ['<'])
    else c :: stripTagsGo rest none
  | c :: rest, some buf =>
    if c = '>' then
      if 2 ≤ buf.length then stripTagsGo rest none
      else buf ++ '>' :: stripTagsGo rest none
    else stripTagsGo rest (some (buf ++ [c]))

/-- The named HTML entities recognised by the embedding of `html.unescape`.
Python's `html.unescape` resolves the full HTML5 entity table (a stdlib data
table); the claims under verification never depend on entries outside this
representative set, so the embedding restricts the table to it. -/
def NAMED_ENTITIES : List (List Char × List Char) :=
  [("amp;".toList, "&".toList),
   ("lt;".toList, "<".toList),
   ("gt;".toList, ">".toList),
   ("quot;".toList, "\"".toList),
   ("apos;".toList, "'".toList),
   ("nbsp;".toList, "\u00A0".toList)]

/-- Find an entity of the table that is a literal next to an `&`. -/
def matchEntity : List (List Char × List Char) → List Char →
    Option (List Char × List Char)
  | [], _ => none
  | (name, rep) :: rest, cs =>
    if name.isPrefixOf cs then some (rep, cs.drop name.length)
    else matchEntity rest cs

/-- Fuelled scanner embedding `html.unescape` over the restricted table. -/
def unescapeGo : Nat → List Char → List Char
  | 0, cs => cs
  | _ + 1, [] => []
  | fuel + 1, '&' :: rest =>
    match matchEntity NAMED_ENTITIES rest with
    | some (rep, rem) => rep ++ unescapeGo fuel rem
    | none => '&' :: unescapeGo fuel rest
  | fuel + 1, c :: rest => c :: unescapeGo fuel rest

/-- `strip_xhtml` (source lines 50-53): strip tags, unescape entities, replace
non-breaking spaces by plain spaces and trim; `None` and `""` give `""`. -/
def strip_xhtml (s : Option String) : String :=
  match s with
  | none => ""
  | some s =>
    if s = "" then ""
    else
      let noTags := stripTagsGo s.toList none
      let unescaped := unescapeGo noTags.length noTags
      let nbspReplaced := unescaped.map fun c => if c = '\u00A0' then ' ' else c
      String.mk (pyStrip nbspReplaced)

/-! ## The document model

The adapter interface of the document model (spec §4.1), as the walker
consumes it: facts, contexts keyed by identifier, concepts with labels, and
per-linkrole presentation relationships with roots. -/

/-- A fact value: Python `fact.xValue` is a string, a number, or `None`. -/
inductive XValue where
  | vstr (s : String)
  | vnum (n : Int)
  | vnone
  deriving DecidableEq, Repr

/-- `isinstance(val, str) and _TAG_RE.search(val)` (source line 249). -/
def xValueHasMarkup : XValue → Bool
  | XValue.vstr s => hasMarkup s.toList
  | _ => false

/-- One dimensional qualifier of a context: `dim_qn.localName` together with
`dim_val.memberQname` (whose `localName` is kept; `none` embeds a member-less
dimension value). -/
structure DimEntry where
  dimLocalName : String
  memberLocalName : Option String
  deriving DecidableEq, Repr

/-- A reporting context: identifier, period instants and dimensions.  Dates
are opaque strings since no claim computes on them. -/
structure Context where
  startDatetime : Option String
  endDatetime : Option String
  instantDatetime : Option String
  qnameDims : List DimEntry
  deriving DecidableEq, Repr

/-- An XBRL unit as `unit_to_str` consumes it: an optional `value` attribute
and optional `(numerators, denominators)` measure lists. -/
structure UnitT where
  value : Option String
  measures : Option (List String × List String)
  deriving DecidableEq, Repr

/-- A reported fact.  `value` is Python `fact.value` (string form, used for
the metadata scan), `xValue` is the typed value. -/
structure Fact where
  conceptQname : String
  contextID : Option String
  xValue : XValue
  value : String
  isNumeric : Bool
  decimals : Option String
  unit : Option UnitT
  deriving DecidableEq, Repr

/-- A taxonomy concept: printed qualified name, abstract flag, and the label
lookup `concept.label(lang=…, preferredLabel=…)` (returning `None` when no
label exists in that language/role). -/
structure Concept where
  qname : String
  isAbstract : Bool
  label : String → Option String → Option String

/-- A presentation arc (`rel`): source concept qname, target concept, display
order (`getattr(r, "order", 0.0)`, embedded as `Rat`), preferred label role
(`getattr(r, "preferredLabel", None)`; Python truthiness makes an empty role
behave as `None`, so `none` embeds both). -/
structure Rel where
  fromQn : String
  toConcept : Concept
  order : Rat
  preferredLabelRole : Option String

/-- A linkrole-scoped relationship set: its arcs and its root concepts
(`relset.rootConcepts`, computed inside arelle, exposed by the adapter). -/
structure RelSet where
  rels : List Rel
  roots : List Concept

/-- A presentation linkrole: URI and the definition string of its role type
(`model_xbrl.roleTypes.get(uri)`; `none` embeds both a missing role type and
a `None` definition, each of which yields `""` in `parse_xbrl`). -/
structure Linkrole where
  uri : String
  roleDef : Option String
  relset : RelSet

/-- The loaded document model. -/
structure ModelXbrl where
  facts : List Fact
  contexts : List (String × Context)
  linkroles : List Linkrole

/-- `model_xbrl.contexts.get(cid)`. -/
def lookupContext (m : ModelXbrl) (cid : String) : Option Context :=
  (m.contexts.find? fun p => p.1 == cid).map (·.2)

/-- Python `d.get(k, dflt)` on an association list. -/
def dictGetD {β : Type} (d : List (String × β)) (k : String) (dflt : β) : β :=
  match d.find? (fun p => p.1 == k) with
  | some p => p.2
  | none => dflt

/-- Python `d[k] = v`: overwrite in place, else append (insertion order). -/
def dictSet {β : Type} (d : List (String × β)) (k : String) (v : β) :
    List (String × β) :=
  match d with
  | [] => [(k, v)]
  | (k', v') :: rest =>
    if k' == k then (k, v) :: rest else (k', v') :: dictSet rest k v

/-! ## Classifiers and selectors (source lines 36-120) -/

/-- The two recognised consolidation axis names (source lines 57-60). -/
def AXIS_CANDIDATES : List String :=
  ["ConsolidatedOrNonConsolidatedAxis", "ConsolidatedAndNonConsolidatedAxis"]

/-- The configured target linkrole codes (source lines 39-44). -/
def TARGET_ELR_CODES : List String :=
  ["310010", "321010", "342010"]

/-- The dimension scan of `consolidation_from_context`: the first dimension on
a recognised axis decides. -/
def consolidationFromDims : List DimEntry → String
  | [] => "Unknown"
  | d :: rest =>
    if AXIS_CANDIDATES.contains d.dimLocalName then
      match d.memberLocalName with
      | none => "Unknown"
      | some ln =>
        if ln = "ConsolidatedMember" then "Consolidated"
        else if ln = "NonConsolidatedMember" then "NonConsolidated"
        else "Unknown"
    else consolidationFromDims rest

/-- `consolidation_from_context` (source lines 63-78). -/
def consolidation_from_context : Option Context → String
  | none => "Unknown"
  | some ctx => consolidationFromDims ctx.qnameDims

/-- `extract_code_from_definition` (source lines 81-86): Python
`re.match(r"^(\d{6})", def_text.strip())` succeeds precisely when the first
six characters of the stripped text are digits (a seventh digit may follow). -/
def extract_code_from_definition (defText : String) : Option String :=
  if defText = "" then none
  else
    let t := pyStrip defText.toList
    if 6 ≤ t.length ∧ (t.take 6).all Char.isDigit = true then
      some (String.mk (t.take 6))
    else none

/-- `is_target_elr` (source lines 89-91). -/
def is_target_elr (defText : String) : Bool :=
  match extract_code_from_definition defText with
  | some code => TARGET_ELR_CODES.contains code
  | none => false

/-- Python `sorted(..., key=...)` with a two-component key: lexicographic
tuple comparison, as Python compares key tuples. -/
def tupLe {κ₁ κ₂ : Type} [LinearOrder κ₁] [LinearOrder κ₂] (a b : κ₁ × κ₂) :
    Prop :=
  a.1 < b.1 ∨ (a.1 = b.1 ∧ a.2 ≤ b.2)

instance tupLeDec {κ₁ κ₂ : Type} [LinearOrder κ₁] [LinearOrder κ₂] :
    DecidableRel (@tupLe κ₁ κ₂ _ _) :=
  fun _ _ => inferInstanceAs (Decidable (_ ∨ _))

/-- Python's `sorted(l, key=key)` is a stable sort by `≤` on the key tuples;
a stable sort is uniquely determined by that, so insertion sort embeds it. -/
def pySortedBy {α : Type} {κ₁ κ₂ : Type} [LinearOrder κ₁] [LinearOrder κ₂]
    (key : α → κ₁ × κ₂) (l : List α) : List α :=
  @List.insertionSort α (fun a b => tupLe (key a) (key b))
    (fun a b => tupLeDec (key a) (key b)) l

/-- `root_order_key` (source lines 94-98): minimum order among the root's
outgoing arcs (`default=0.0`), tie-broken by the printed qname.  Python
compares the qname strings by code points, which is the lexicographic order
on their character lists. -/
def root_order_key (relset : RelSet) (root : Concept) : Rat × List Char :=
  let rels := relset.rels.filter fun r => r.fromQn == root.qname
  ((rels.map (·.order)).min?.getD 0, root.qname.toList)

/-- The sort key of `iter_children_ordered`: `(order, str(to.qname))`. -/
def childOrderKey (r : Rel) : Rat × List Char :=
  (r.order, r.toConcept.qname.toList)

/-- `iter_children_ordered` (source lines 101-105): the child arcs of
`parent`, sorted by `(order, child qname)`. -/
def iter_children_ordered (relset : RelSet) (parentQn : String) : List Rel :=
  pySortedBy childOrderKey (relset.rels.filter fun r => r.fromQn == parentQn)

/-- `unit_to_str` (source lines 108-120). -/
def unit_to_str (u : Option UnitT) : Option String :=
  match u with
  | none => none
  | some u =>
    match u.value with
    | some v => some v
    | none =>
      match u.measures with
      | some (nums, dens) =>
        if dens.isEmpty then some (String.intercalate ":" nums)
        else some (String.intercalate ":" nums ++ "/" ++
                   String.intercalate ":" dens)
      | none => none

/-- Python `qname.localName` on the printed form, and the heading lookup
`heading_qname.split(":")[-1]`. -/
def localNameOf (s : String) : String :=
  (pySplit s ":").getLastD ""

/-! ## `extract_consolidation_info` (source lines 123-154)

The presentation-based classifier: from every concept whose local name
contains `Heading`, follow arcs (matched by the local name of their source),
tracking the most recent axis-like name; when a member-like name is reached
under the consolidated/non-consolidated axis, record the discovered path
against the original heading name.  The source recursion is unbounded (the
arc graph may be cyclic); the embedding bounds it by fuel. -/

/-- The inner `traverse` of `extract_consolidation_info`, threading the
`consolidation_paths` dict. -/
def eciTraverse (fuel : Nat) (rels : List Rel) (rel : Rel)
    (currentPath : List String) (passedAxis : Option String)
    (paths : List (String × List String)) : List (String × List String) :=
  match fuel with
  | 0 => paths
  | fuel + 1 =>
    let toQn := localNameOf rel.toConcept.qname
    let passedAxis := if substrIn "Axis" toQn then some toQn else passedAxis
    let newPath := currentPath ++ [toQn]
    let paths :=
      if substrIn "Member" toQn &&
          passedAxis == some "ConsolidatedOrNonConsolidatedAxis" then
        dictSet paths (currentPath.headD "") newPath
      else paths
    (rels.filter fun ir => localNameOf ir.fromQn == toQn).foldl
      (fun acc ir => eciTraverse fuel rels ir newPath passedAxis acc) paths

/-- `extract_consolidation_info`: the heading → status map. -/
def extract_consolidation_info (fuel : Nat) (m : ModelXbrl) :
    List (String × String) :=
  let paths := m.linkroles.foldl (fun acc lr =>
    lr.relset.rels.foldl (fun acc2 rel =>
      if substrIn "Heading" (localNameOf rel.fromQn) then
        eciTraverse fuel lr.relset.rels rel [localNameOf rel.fromQn] none acc2
      else acc2) acc) []
  paths.map fun p =>
    let lastElem := p.2.getLastD ""
    (p.1,
      if substrIn "NonConsolidatedMember" lastElem then "NonConsolidated"
      else if substrIn "ConsolidatedMember" lastElem then "Consolidated"
      else "Unknown")

/-! ## Output rows and the walker (source lines 157-292) -/

/-- One 15-field output record (source docstring of `parse_xbrl`).  Heading
rows carry `""` in the fact-specific fields (embedded as `some ""` where the
field is optional on fact rows, mirroring Python `""` vs `None`). -/
structure Row where
  qname : String
  defaultLabel : String
  preferredLabel : String
  labelPath : String
  qnamePath : String
  linkroleDefinition : String
  value : XValue
  contextID : Option String
  startDate : Option String
  endDate : Option String
  instantDate : Option String
  decimals : Option String
  unitStr : Option String
  consolidationStatus : String
  matchStatus : String
  deriving DecidableEq, Repr

/-- The heading row built by `append_fact_row` when `fact is None`
(source lines 170-175). -/
def heading_row (defaultLabel preferredLabel qname currentLabelPath
    currentQnamePath linkroleDefinition consolidationStatus mismatchStatus :
    String) : Row :=
  { qname := qname, defaultLabel := defaultLabel,
    preferredLabel := preferredLabel, labelPath := currentLabelPath,
    qnamePath := currentQnamePath, linkroleDefinition := linkroleDefinition,
    value := XValue.vstr "", contextID := some "", startDate := some "",
    endDate := some "", instantDate := some "", decimals := some "",
    unitStr := some "", consolidationStatus := consolidationStatus,
    matchStatus := mismatchStatus }

/-- The fact row built by `append_fact_row` when `fact` is present
(source lines 178-191); `ctx` is `fact.context`. -/
def fact_row (m : ModelXbrl) (fact : Fact) (defaultLabel preferredLabel qname
    currentLabelPath currentQnamePath linkroleDefinition consolidationStatus
    mismatchStatus : String) : Row :=
  let ctx := fact.contextID.bind (lookupContext m)
  { qname := qname, defaultLabel := defaultLabel,
    preferredLabel := preferredLabel, labelPath := currentLabelPath,
    qnamePath := currentQnamePath, linkroleDefinition := linkroleDefinition,
    value := fact.xValue, contextID := fact.contextID,
    startDate := ctx.bind (·.startDatetime),
    endDate := ctx.bind (·.endDatetime),
    instantDate := ctx.bind (·.instantDatetime),
    decimals := if fact.isNumeric then fact.decimals else some "N/A",
    unitStr := unit_to_str fact.unit,
    consolidationStatus := consolidationStatus,
    matchStatus := mismatchStatus }

/-- `append_fact_row` (source lines 157-191): append one row, a heading row
when `factOpt` is `none`. -/
def append_fact_row (m : ModelXbrl) (rows : List Row) (factOpt : Option Fact)
    (defaultLabel preferredLabel qname currentLabelPath currentQnamePath
    linkroleDefinition consolidationStatus mismatchStatus : String) :
    List Row :=
  match factOpt with
  | none => rows ++ [heading_row defaultLabel preferredLabel qname
      currentLabelPath currentQnamePath linkroleDefinition
      consolidationStatus mismatchStatus]
  | some fact => rows ++ [fact_row m fact defaultLabel preferredLabel qname
      currentLabelPath currentQnamePath linkroleDefinition
      consolidationStatus mismatchStatus]

/-- The presentation-based status of the walk's top-level heading (source
lines 231-233): first element of the qname path, local name, looked up in
`consolidation_info` with default `"Unknown"`. -/
def lrStatusOf (consolidationInfo : List (String × String))
    (currentQnamePath : String) : String :=
  let headingQname := (pySplit currentQnamePath " > ").headD ""
  dictGetD consolidationInfo (localNameOf headingQname) "Unknown"

/-- The context-based status of a fact (source lines 235-236):
`consolidation_from_context(model_xbrl.contexts.get(fact.contextID))`. -/
def ctxConsOf (m : ModelXbrl) (fact : Fact) : String :=
  consolidation_from_context (fact.contextID.bind (lookupContext m))

/-- The reconciled (effective) status (source line 238): context-based when
that is not `"Unknown"`, otherwise the presentation-based heading status. -/
def effectiveConsFor (m : ModelXbrl) (consolidationInfo : List (String × String))
    (currentQnamePath : String) (fact : Fact) : String :=
  let ctxCons := ctxConsOf m fact
  if ctxCons ≠ "Unknown" then ctxCons else lrStatusOf consolidationInfo currentQnamePath

/-- The diagnostic match status (source lines 257-264). -/
def mismatch_status_of (lrStatus ctxCons : String) : String :=
  if (lrStatus = "Consolidated" ∨ lrStatus = "NonConsolidated") ∧
      (ctxCons = "Consolidated" ∨ ctxCons = "NonConsolidated") ∧
      lrStatus = ctxCons then "Match"
  else if (lrStatus = "Consolidated" ∨ lrStatus = "NonConsolidated") ∧
      (ctxCons = "Consolidated" ∨ ctxCons = "NonConsolidated") then "Mismatch"
  else "Unknown"

/-- The per-fact filter chain of the fact loop (source lines 227-254): a fact
is accepted when every `continue` guard passes — concept match (line 228),
effective status `"Consolidated"` (line 239), current-year context-identifier
marker (lines 242-245), no markup in a textual value (line 249), and the
concept not yet emitted anywhere in this document (line 253). -/
def factAccept (m : ModelXbrl) (consolidationInfo : List (String × String))
    (conceptQn currentQnamePath : String) (seen : List String)
    (fact : Fact) : Bool :=
  fact.conceptQname == conceptQn &&
  effectiveConsFor m consolidationInfo currentQnamePath fact == "Consolidated" &&
  (let cid := fact.contextID.getD ""
   pyStartsWith cid "CurrentYearDuration" || pyStartsWith cid "CurrentYearInstant") &&
  !xValueHasMarkup fact.xValue &&
  !seen.contains conceptQn

/-- The row emitted for an accepted fact (source lines 257-270). -/
def emitted_fact_row (m : ModelXbrl) (consolidationInfo : List (String × String))
    (fact : Fact) (defaultLabel preferredLabel qname currentLabelPath
    currentQnamePath linkroleDefinition : String) : Row :=
  fact_row m fact defaultLabel preferredLabel qname currentLabelPath
    currentQnamePath linkroleDefinition
    (effectiveConsFor m consolidationInfo currentQnamePath fact)
    (mismatch_status_of (lrStatusOf consolidationInfo currentQnamePath)
      (ctxConsOf m fact))

/-- The fact loop of `output_fact_with_hierarchy` (source lines 226-272): the
first accepted fact in document enumeration order is emitted and the concept
is recorded in the seen-set; the loop then `break`s, so at most one row is
emitted per call. -/
def output_current_consolidated_fact (m : ModelXbrl)
    (consolidationInfo : List (String × String))
    (qname defaultLabel preferredLabel currentLabelPath currentQnamePath
    linkroleDefinition : String) (seen : List String) (rows : List Row) :
    List Row × List String :=
  match m.facts.find? (factAccept m consolidationInfo qname currentQnamePath seen) with
  | none => (rows, seen)
  | some fact =>
    (rows ++ [emitted_fact_row m consolidationInfo fact defaultLabel
        preferredLabel qname currentLabelPath currentQnamePath
        linkroleDefinition],
     seen ++ [qname])

/-- The walk-global mutable state of the source: the output rows, the
preferred-label dict and the seen-set, threaded explicitly. -/
structure WalkState where
  rows : List Row
  preferredLabelDict : List (String × String)
  seenQnames : List String

/-- `default_label` of a node (source line 210):
`strip_xhtml(concept.label(lang='ja')) or str(concept.qname)`. -/
def node_default_label (c : Concept) : String :=
  let l := strip_xhtml (c.label "ja" none)
  if l = "" then c.qname else l

/-- The child display label (source lines 277-285): with a preferred label
role try `ja` then `en` under that role, else try `ja` then `en` default
labels; fall back to the printed qname. -/
def child_label_of (child : Concept) (roleOpt : Option String) : String :=
  match roleOpt with
  | some role =>
    let a := strip_xhtml (child.label "ja" (some role))
    if a ≠ "" then a
    else
      let b := strip_xhtml (child.label "en" (some role))
      if b ≠ "" then b else child.qname
  | none =>
    let a := strip_xhtml (child.label "ja" none)
    if a ≠ "" then a
    else
      let b := strip_xhtml (child.label "en" none)
      if b ≠ "" then b else child.qname

/-- `output_fact_with_hierarchy` (source lines 194-292): heading row for an
abstract concept, then the current-year-consolidated fact row, then the
children in `(order, qname)` order.  The source guards `concept is None`
(line 207); arcs of the embedding always carry a concept, so the guard is
vacuous here.  Fuel bounds the recursion depth. -/
def output_fact_with_hierarchy (fuel : Nat) (m : ModelXbrl) (relset : RelSet)
    (concept : Concept) (path qnamePath : List String)
    (linkroleDefinition : String)
    (consolidationInfo : List (String × String)) (st : WalkState) :
    WalkState :=
  match fuel with
  | 0 => st
  | fuel + 1 =>
    let defaultLabel := node_default_label concept
    let preferredLabel := dictGetD st.preferredLabelDict concept.qname defaultLabel
    let qname := concept.qname
    let currentLabelPath := String.intercalate " > " (path ++ [preferredLabel])
    let currentQnamePath := String.intercalate " > " (qnamePath ++ [qname])
    let rows1 :=
      if concept.isAbstract then
        append_fact_row m st.rows none defaultLabel preferredLabel qname
          currentLabelPath currentQnamePath linkroleDefinition "Heading" ""
      else st.rows
    let p := output_current_consolidated_fact m consolidationInfo qname
      defaultLabel preferredLabel currentLabelPath currentQnamePath
      linkroleDefinition st.seenQnames rows1
    let st2 : WalkState :=
      { rows := p.1, preferredLabelDict := st.preferredLabelDict,
        seenQnames := p.2 }
    (iter_children_ordered relset qname).foldl
      (fun acc r =>
        let child := r.toConcept
        let childLabel := child_label_of child r.preferredLabelRole
        let acc2 : WalkState :=
          { acc with preferredLabelDict :=
              dictSet acc.preferredLabelDict child.qname childLabel }
        output_fact_with_hierarchy fuel m relset child
          (path ++ [preferredLabel]) (qnamePath ++ [qname])
          linkroleDefinition consolidationInfo acc2)
      st2

/-! ## `parse_xbrl` (source lines 295-345) -/

/-- The incidental filing metadata (source lines 310-316). -/
structure MetaInfo where
  companyName : Option String
  netsales : Option String
  deriving DecidableEq, Repr

/-- The metadata scan over all facts (last assignment wins). -/
def meta_of (m : ModelXbrl) : MetaInfo :=
  m.facts.foldl (fun a f =>
    let ln := localNameOf f.conceptQname
    if ln = "CompanyNameCoverPage" then { a with companyName := some f.value }
    else if ln = "NetSales" then { a with netsales := some f.value }
    else a)
    { companyName := none, netsales := none }

/-- The target-linkrole selection (source lines 322-328): the stripped
definition of each linkrole, kept when `is_target_elr` holds, as a
`(code, linkrole, definition)` triple. -/
def targetsOf (m : ModelXbrl) : List (String × Linkrole × String) :=
  m.linkroles.filterMap fun lr =>
    let definition := strip_xhtml lr.roleDef
    if is_target_elr definition then
      some ((extract_code_from_definition definition).getD "", lr, definition)
    else none

/-- The sort key of the target loop (source line 335): `(t[0], t[2])`, with
Python's code-point string comparison embedded as the lexicographic order on
character lists. -/
def targetKey (t : String × Linkrole × String) : List Char × List Char :=
  (t.1.toList, t.2.2.toList)

/-- The targets in processing order (source line 335). -/
def sortedTargetsOf (m : ModelXbrl) : List (String × Linkrole × String) :=
  pySortedBy targetKey (targetsOf m)

/-- The roots of one linkrole in processing order (source line 337). -/
def sortedRoots (relset : RelSet) : List Concept :=
  pySortedBy (root_order_key relset) relset.roots

/-- The state after walking every selected target (source lines 330-342):
empty initial rows, preferred-label dict and seen-set, then every target in
ascending `(code, definition)` order, its roots in `root_order_key` order. -/
def parse_walk_state (fuel : Nat) (m : ModelXbrl) : WalkState :=
  let consolidationInfo := extract_consolidation_info fuel m
  (sortedTargetsOf m).foldl
    (fun st t =>
      let relset := t.2.1.relset
      (sortedRoots relset).foldl
        (fun st2 root =>
          output_fact_with_hierarchy fuel m relset root [] [] t.2.2
            consolidationInfo st2)
        st)
    { rows := [], preferredLabelDict := [], seenQnames := [] }

/-- `parse_xbrl` (source lines 295-345), minus the I/O of loading: metadata
scan, presentation-based consolidation map, target selection, and the walk
over every selected linkrole's roots in order.  The returned rows are in
emission order (the source never re-sorts them). -/
def parse_xbrl (fuel : Nat) (m : ModelXbrl) : MetaInfo × List Row :=
  (meta_of m, (parse_walk_state fuel m).rows)

/-! ## Spec-side definitions

Definitions following the spec's words, used to state the claims; they are
compared with, never used by, the source embedding above. -/

/-- A row is a Fact row when its consolidation-status field is not the
heading marker (heading rows always carry `"Heading"` there). -/
def isFactRow (r : Row) : Bool :=
  r.consolidationStatus != "Heading"

/-- The qualified names of the Fact rows of an output, in order. -/
def factRowQnames (rows : List Row) : List String :=
  (rows.filter isFactRow).map (·.qname)

/-- The rows/seen-set invariant: every row is a heading row or a
`"Consolidated"` fact row, Fact-row qnames are pairwise distinct, and every
emitted Fact-row qname has been recorded in the seen-set. -/
def RowsInv (rows : List Row) (seen : List String) : Prop :=
  (∀ r ∈ rows, r.consolidationStatus = "Heading" ∨
      r.consolidationStatus = "Consolidated") ∧
  (factRowQnames rows).Nodup ∧
  ∀ q ∈ factRowQnames rows, q ∈ seen

/-- The walk invariant, on the threaded state. -/
def WalkInv (st : WalkState) : Prop :=
  RowsInv st.rows st.seenQnames

/-- Forget every period date of every context (the fields the spec's "sole
period-selection criterion" sentence says are never consulted for
selection). -/
def erase_period_dates (m : ModelXbrl) : ModelXbrl :=
  { m with contexts := m.contexts.map fun p =>
      (p.1,
        { p.2 with
          startDatetime := none
          endDatetime := none
          instantDatetime := none }) }

/-- Length of the leading digit run of the stripped text (spec: "starts with
exactly 6 digits" means this run has length exactly 6). -/
def leading_digit_run (s : String) : Nat :=
  ((pyStrip s.toList).takeWhile Char.isDigit).length

/-- The spec's selection condition for C6: the stripped definition starts
with a run of exactly six digits. -/
def starts_with_exactly_six_digits (s : String) : Prop :=
  leading_digit_run s = 6

/-! ## Sample documents

Small concrete documents used to evaluate the embedding at explicit inputs
(counterexamples and hypothesis witnesses). -/

/-- An abstract heading concept. -/
def conceptA : Concept :=
  { qname := "t:A", isAbstract := true, label := fun _ _ => none }

/-- A non-abstract (leaf) concept. -/
def conceptB : Concept :=
  { qname := "t:B", isAbstract := false, label := fun _ _ => none }

/-- The arc `t:A → t:B` with order 1. -/
def relAB : Rel :=
  { fromQn := "t:A", toConcept := conceptB, order := 1,
    preferredLabelRole := none }

/-- A one-arc relationship set rooted at `t:A`. -/
def relsetAB : RelSet :=
  { rels := [relAB], roots := [conceptA] }

/-- A current-year instant context on the consolidated member. -/
def ctxConsSample : Context :=
  { startDatetime := none, endDatetime := none,
    instantDatetime := some "2024-03-31",
    qnameDims := [{ dimLocalName := "ConsolidatedOrNonConsolidatedAxis",
                    memberLocalName := some "ConsolidatedMember" }] }

/-- A current-year instant context on the non-consolidated member. -/
def ctxNonConsSample : Context :=
  { startDatetime := none, endDatetime := none,
    instantDatetime := some "2024-03-31",
    qnameDims := [{ dimLocalName := "ConsolidatedOrNonConsolidatedAxis",
                    memberLocalName := some "NonConsolidatedMember" }] }

/-- A consolidated current-year fact for `t:B`. -/
def factBCons : Fact :=
  { conceptQname := "t:B", contextID := some "CurrentYearInstant",
    xValue := XValue.vnum 1000000, value := "1000000", isNumeric := true,
    decimals := some "-3", unit := some { value := some "JPY", measures := none } }

/-- A non-consolidated current-year fact for `t:B`. -/
def factBNonCons : Fact :=
  { conceptQname := "t:B",
    contextID := some "CurrentYearInstant_NonConsolidatedMember",
    xValue := XValue.vnum 555, value := "555", isNumeric := true,
    decimals := some "-3", unit := none }

/-- A document with one target statement and one consolidated fact. -/
def sampleDoc : ModelXbrl :=
  { facts := [factBCons],
    contexts := [("CurrentYearInstant", ctxConsSample)],
    linkroles := [{ uri := "u1", roleDef := some "310010 BS",
                    relset := relsetAB }] }

/-- A document whose abstract heading `t:A` occurs in two target
linkroles. -/
def twoRoleDoc : ModelXbrl :=
  { facts := [], contexts := [],
    linkroles := [{ uri := "u1", roleDef := some "310010 BS",
                    relset := relsetAB },
                  { uri := "u2", roleDef := some "321010 PL",
                    relset := relsetAB }] }

/-- A document with both a non-consolidated and a consolidated current-year
fact for the same concept (the non-consolidated fact enumerated first). -/
def twoFactDoc : ModelXbrl :=
  { facts := [factBNonCons, factBCons],
    contexts := [("CurrentYearInstant", ctxConsSample),
                 ("CurrentYearInstant_NonConsolidatedMember", ctxNonConsSample)],
    linkroles := [{ uri := "u1", roleDef := some "310010 BS",
                    relset := relsetAB }] }

/-- A document with no target linkrole. -/
def noTargetDoc : ModelXbrl :=
  { facts := [factBCons],
    contexts := [("CurrentYearInstant", ctxConsSample)],
    linkroles := [{ uri := "u1", roleDef := some "900000 Notes",
                    relset := relsetAB }] }

/-- A fact whose context identifier is absent from the context map. -/
def factOrphan : Fact :=
  { conceptQname := "t:B", contextID := some "CurrentYearInstant_Missing",
    xValue := XValue.vnum 7, value := "7", isNumeric := true,
    decimals := none, unit := none }

/-- A consolidated fact on a prior-year context identifier. -/
def factPriorYear : Fact :=
  { conceptQname := "t:B", contextID := some "Prior1YearInstant",
    xValue := XValue.vnum 999, value := "999", isNumeric := true,
    decimals := some "-3", unit := none }

/-- A placeholder row used as the default of `List.headD`. -/
def fallbackRow : Row :=
  heading_row "" "" "" "" "" "" "Heading" ""

/-! ## General lemmas -/

/-- A `foldl` preserves any invariant its step preserves. -/
theorem foldl_preserve {σ α : Type} (P : σ → Prop) (f : σ → α → σ) :
    ∀ (l : List α) (s : σ), (∀ s' a, P s' → P (f s' a)) → P s →
      P (l.foldl f s) := by
  intro l
  induction l with
  | nil => intro s _ hs; simpa using hs
  | cons a t ih =>
    intro s hstep hs
    simpa using ih (f s a) hstep (hstep s a hs)

/-- The fact loop either leaves rows and seen-set unchanged, or emits the row
of the first accepted fact and records the concept. -/
theorem occf_cases (m : ModelXbrl) (ci : List (String × String))
    (qn dl pl clp cqp lrd : String) (seen : List String) (rows : List Row) :
    output_current_consolidated_fact m ci qn dl pl clp cqp lrd seen rows =
        (rows, seen) ∨
    ∃ f, m.facts.find? (factAccept m ci qn cqp seen) = some f ∧
      output_current_consolidated_fact m ci qn dl pl clp cqp lrd seen rows =
        (rows ++ [emitted_fact_row m ci f dl pl qn clp cqp lrd],
         seen ++ [qn]) := by
  unfold output_current_consolidated_fact
  cases h : m.facts.find? (factAccept m ci qn cqp seen) with
  | none => exact Or.inl rfl
  | some f => exact Or.inr ⟨f, rfl, rfl⟩

/-- Decomposition of an accepted fact: all five filter conjuncts hold. -/
theorem factAccept_decomp {m : ModelXbrl} {ci : List (String × String)}
    {qn cqp : String} {seen : List String} {f : Fact}
    (h : factAccept m ci qn cqp seen f = true) :
    f.conceptQname = qn ∧
    effectiveConsFor m ci cqp f = "Consolidated" ∧
    (pyStartsWith (f.contextID.getD "") "CurrentYearDuration" = true ∨
     pyStartsWith (f.contextID.getD "") "CurrentYearInstant" = true) ∧
    xValueHasMarkup f.xValue = false ∧
    qn ∉ seen := by
  simp only [factAccept, Bool.and_eq_true, beq_iff_eq, Bool.or_eq_true,
    Bool.not_eq_true'] at h
  obtain ⟨⟨⟨⟨h1, h2⟩, h3⟩, h4⟩, h5⟩ := h
  refine ⟨h1, h2, h3, h4, ?_⟩
  simpa using h5

/-- Fact-row qnames distribute over row append. -/
theorem factRowQnames_append (a b : List Row) :
    factRowQnames (a ++ b) = factRowQnames a ++ factRowQnames b := by
  simp [factRowQnames, List.filter_append]

/-- A heading row contributes no Fact-row qname. -/
theorem factRowQnames_heading (dl pl qn clp cqp lrd ms : String) :
    factRowQnames [heading_row dl pl qn clp cqp lrd "Heading" ms] = [] := by
  simp [factRowQnames, heading_row, isFactRow]

/-- The status field of the row emitted for a fact is its effective
consolidation status. -/
theorem emitted_row_status (m : ModelXbrl) (ci : List (String × String))
    (f : Fact) (dl pl qn clp cqp lrd : String) :
    (emitted_fact_row m ci f dl pl qn clp cqp lrd).consolidationStatus =
      effectiveConsFor m ci cqp f := by
  simp [emitted_fact_row, fact_row]

/-- The qname field of an emitted fact row is the walked concept's qname. -/
theorem emitted_row_qname (m : ModelXbrl) (ci : List (String × String))
    (f : Fact) (dl pl qn clp cqp lrd : String) :
    (emitted_fact_row m ci f dl pl qn clp cqp lrd).qname = qn := by
  simp [emitted_fact_row, fact_row]

/-- An emitted fact row with effective status `"Consolidated"` contributes
exactly its concept's qname to the Fact-row qnames. -/
theorem factRowQnames_emitted (m : ModelXbrl) (ci : List (String × String))
    (f : Fact) (dl pl qn clp cqp lrd : String)
    (h : effectiveConsFor m ci cqp f = "Consolidated") :
    factRowQnames [emitted_fact_row m ci f dl pl qn clp cqp lrd] = [qn] := by
  simp [factRowQnames, isFactRow, emitted_row_status, emitted_row_qname, h]

/-- Prepending a heading row to the output preserves the invariant. -/
theorem rowsInv_heading {rows : List Row} {seen : List String}
    (h : RowsInv rows seen) (dl pl qn clp cqp lrd ms : String) :
    RowsInv (rows ++ [heading_row dl pl qn clp cqp lrd "Heading" ms]) seen := by
  obtain ⟨h1, h2, h3⟩ := h
  refine ⟨?_, ?_, ?_⟩
  · intro r hr
    rcases List.mem_append.1 hr with hr | hr
    · exact h1 r hr
    · simp only [List.mem_singleton] at hr
      subst hr
      exact Or.inl rfl
  · simpa [factRowQnames_append, factRowQnames_heading] using h2
  · intro q hq
    rw [factRowQnames_append, factRowQnames_heading, List.append_nil] at hq
    exact h3 q hq

/-- The fact loop preserves the invariant. -/
theorem rowsInv_occf {rows : List Row} {seen : List String}
    (m : ModelXbrl) (ci : List (String × String))
    (qn dl pl clp cqp lrd : String) (h : RowsInv rows seen) :
    RowsInv
      (output_current_consolidated_fact m ci qn dl pl clp cqp lrd seen rows).1
      (output_current_consolidated_fact m ci qn dl pl clp cqp lrd seen rows).2 := by
  rcases occf_cases m ci qn dl pl clp cqp lrd seen rows with hc | ⟨f, hf, hc⟩
  · rw [hc]; exact h
  · rw [hc]
    obtain ⟨h1, h2, h3⟩ := h
    have hacc := List.find?_some hf
    obtain ⟨hqn, heff, -, -, hseen⟩ := factAccept_decomp hacc
    refine ⟨?_, ?_, ?_⟩
    · intro r hr
      rcases List.mem_append.1 hr with hr | hr
      · exact h1 r hr
      · simp only [List.mem_singleton] at hr
        subst hr
        exact Or.inr (by rw [emitted_row_status, heff])
    · rw [factRowQnames_append, factRowQnames_emitted m ci f dl pl qn clp cqp lrd heff]
      rw [List.nodup_append]
      refine ⟨h2, List.nodup_singleton qn, ?_⟩
      intro q hq hq1
      simp only [List.mem_singleton] at hq1
      subst hq1
      exact hseen (h3 q hq)
    · intro q hq
      rw [factRowQnames_append,
        factRowQnames_emitted m ci f dl pl qn clp cqp lrd heff] at hq
      rcases List.mem_append.1 hq with hq | hq
      · exact List.mem_append_left _ (h3 q hq)
      · simp only [List.mem_singleton] at hq
        subst hq
        exact List.mem_append_right _ (List.mem_singleton.2 rfl)

/-- One recursive walk preserves the invariant. -/
theorem walk_preserves_inv (m : ModelXbrl) (relset : RelSet) (lrd : String)
    (ci : List (String × String)) :
    ∀ (fuel : Nat) (concept : Concept) (path qnamePath : List String)
      (st : WalkState), WalkInv st →
      WalkInv (output_fact_with_hierarchy fuel m relset concept path qnamePath
        lrd ci st) := by
  intro fuel
  induction fuel with
  | zero =>
    intro c p q st h
    simpa [output_fact_with_hierarchy] using h
  | succ n ih =>
    intro c p q st hst
    simp only [output_fact_with_hierarchy]
    apply foldl_preserve WalkInv
    · intro s r hs
      exact ih _ _ _ _ hs
    · show WalkInv _
      refine rowsInv_occf m ci _ _ _ _ _ _ ?_
      by_cases hA : c.isAbstract
      · simp only [hA, if_true, append_fact_row]
        exact rowsInv_heading hst _ _ _ _ _ _ _
      · simp only [hA, if_false]
        exact hst

/-- The fact loop only appends rows. -/
theorem occf_rows_mono (m : ModelXbrl) (ci : List (String × String))
    (qn dl pl clp cqp lrd : String) (seen : List String) (rows : List Row) :
    ∃ t, (output_current_consolidated_fact m ci qn dl pl clp cqp lrd seen
      rows).1 = rows ++ t := by
  rcases occf_cases m ci qn dl pl clp cqp lrd seen rows with hc | ⟨f, -, hc⟩
  · exact ⟨[], by rw [hc, List.append_nil]⟩
  · exact ⟨[emitted_fact_row m ci f dl pl qn clp cqp lrd], by rw [hc]⟩

/-- The walk only appends rows. -/
theorem walk_rows_mono (m : ModelXbrl) (relset : RelSet) (lrd : String)
    (ci : List (String × String)) :
    ∀ (fuel : Nat) (concept : Concept) (path qnamePath : List String)
      (st : WalkState), ∃ t,
      (output_fact_with_hierarchy fuel m relset concept path qnamePath lrd ci
        st).rows = st.rows ++ t := by
  intro fuel
  induction fuel with
  | zero =>
    intro c p q st
    exact ⟨[], by simp [output_fact_with_hierarchy]⟩
  | succ n ih =>
    intro c p q st
    simp only [output_fact_with_hierarchy]
    set rows1 := if c.isAbstract then append_fact_row m st.rows none
      (node_default_label c)
      (dictGetD st.preferredLabelDict c.qname (node_default_label c)) c.qname
      (String.intercalate " > "
        (p ++ [dictGetD st.preferredLabelDict c.qname (node_default_label c)]))
      (String.intercalate " > " (q ++ [c.qname])) lrd "Heading" ""
      else st.rows with hrows1
    have h1 : ∃ t, rows1 = st.rows ++ t := by
      by_cases hA : c.isAbstract
      · exact ⟨_, by rw [hrows1, if_pos hA, append_fact_row]⟩
      · exact ⟨[], by rw [hrows1, if_neg hA, List.append_nil]⟩
    obtain ⟨t1, ht1⟩ := h1
    obtain ⟨t2, ht2⟩ := occf_rows_mono m ci c.qname (node_default_label c)
      (dictGetD st.preferredLabelDict c.qname (node_default_label c))
      (String.intercalate " > "
        (p ++ [dictGetD st.preferredLabelDict c.qname (node_default_label c)]))
      (String.intercalate " > " (q ++ [c.qname])) lrd st.seenQnames rows1
    apply foldl_preserve (fun s : WalkState => ∃ t, s.rows = st.rows ++ t)
    · intro s r hs
      obtain ⟨t3, ht3⟩ := hs
      obtain ⟨t4, ht4⟩ := ih r.toConcept
        (p ++ [dictGetD st.preferredLabelDict c.qname (node_default_label c)])
        (q ++ [c.qname])
        ({ s with preferredLabelDict := dictSet s.preferredLabelDict r.toConcept.qname (child_label_of r.toConcept r.preferredLabelRole) })
      refine ⟨t3 ++ t4, ?_⟩
      dsimp only at ht4 ⊢
      rw [ht4, ht3, List.append_assoc]
    · refine ⟨t1 ++ t2, ?_⟩
      dsimp only
      rw [ht2, ht1, List.append_assoc]

/-- Python tuple comparison is total. -/
theorem tupLe_total {κ₁ κ₂ : Type} [LinearOrder κ₁] [LinearOrder κ₂]
    (a b : κ₁ × κ₂) : tupLe a b ∨ tupLe b a := by
  rcases lt_trichotomy a.1 b.1 with h | h | h
  · exact Or.inl (Or.inl h)
  · rcases le_total a.2 b.2 with h2 | h2
    · exact Or.inl (Or.inr ⟨h, h2⟩)
    · exact Or.inr (Or.inr ⟨h.symm, h2⟩)
  · exact Or.inr (Or.inl h)

/-- Python tuple comparison is transitive. -/
theorem tupLe_trans {κ₁ κ₂ : Type} [LinearOrder κ₁] [LinearOrder κ₂]
    {a b c : κ₁ × κ₂} (h1 : tupLe a b) (h2 : tupLe b c) : tupLe a c := by
  rcases h1 with h1 | ⟨h1e, h1le⟩
  · rcases h2 with h2 | ⟨h2e, -⟩
    · exact Or.inl (h1.trans h2)
    · exact Or.inl (h2e ▸ h1)
  · rcases h2 with h2 | ⟨h2e, h2le⟩
    · exact Or.inl (h1e ▸ h2)
    · exact Or.inr ⟨h1e.trans h2e, h1le.trans h2le⟩

/-- Python tuple comparison is antisymmetric. -/
theorem tupLe_antisymm {κ₁ κ₂ : Type} [LinearOrder κ₁] [LinearOrder κ₂]
    {a b : κ₁ × κ₂} (h1 : tupLe a b) (h2 : tupLe b a) : a = b := by
  rcases h1 with h1 | ⟨h1e, h1le⟩
  · rcases h2 with h2 | ⟨h2e, -⟩
    · exact absurd h2 (lt_asymm h1)
    · rw [h2e] at h1
      exact absurd h1 (lt_irrefl _)
  · rcases h2 with h2 | ⟨-, h2le⟩
    · rw [h1e] at h2
      exact absurd h2 (lt_irrefl _)
    · exact Prod.ext h1e (le_antisymm h1le h2le)

/-- The embedded Python sort produces a key-sorted list. -/
theorem pySortedBy_sorted {α κ₁ κ₂ : Type} [LinearOrder κ₁] [LinearOrder κ₂]
    (key : α → κ₁ × κ₂) (l : List α) :
    (pySortedBy key l).Pairwise fun a b => tupLe (key a) (key b) := by
  have htot : IsTotal α fun a b => tupLe (key a) (key b) :=
    ⟨fun a b => tupLe_total (key a) (key b)⟩
  have htrans : IsTrans α fun a b => tupLe (key a) (key b) :=
    ⟨fun _ _ _ hab hbc => tupLe_trans hab hbc⟩
  unfold pySortedBy
  exact @List.sorted_insertionSort α (fun a b => tupLe (key a) (key b))
    (fun a b => tupLeDec (key a) (key b)) htot htrans l

/-- The embedded Python sort permutes its input. -/
theorem pySortedBy_perm {α κ₁ κ₂ : Type} [LinearOrder κ₁] [LinearOrder κ₂]
    (key : α → κ₁ × κ₂) (l : List α) : (pySortedBy key l).Perm l := by
  unfold pySortedBy
  exact @List.perm_insertionSort α (fun a b => tupLe (key a) (key b))
    (fun a b => tupLeDec (key a) (key b)) l

/-- Two key-sorted lists that are permutations of each other and have
pairwise-distinct keys are equal. -/
theorem sorted_perm_eq_of_nodup_keys {α κ₁ κ₂ : Type} [LinearOrder κ₁]
    [LinearOrder κ₂] (key : α → κ₁ × κ₂) :
    ∀ (l₁ l₂ : List α), (l₁.Pairwise fun a b => tupLe (key a) (key b)) →
      (l₂.Pairwise fun a b => tupLe (key a) (key b)) →
      l₁.Perm l₂ → (l₁.map key).Nodup → l₁ = l₂ := by
  intro l₁
  induction l₁ with
  | nil =>
    intro l₂ _ _ hp _
    exact hp.nil_eq
  | cons a t ih =>
    intro l₂ hs1 hs2 hp hnd
    cases l₂ with
    | nil => exact absurd hp.symm.nil_eq (by simp)
    | cons b t₂ =>
      have hab : a = b := by
        have hbmem : b ∈ a :: t := hp.mem_iff.2 (List.mem_cons_self b t₂)
        have hamem : a ∈ b :: t₂ := hp.mem_iff.1 (List.mem_cons_self a t)
        rcases List.mem_cons.1 hbmem with hba | hbt
        · exact hba.symm
        rcases List.mem_cons.1 hamem with hab | hat2
        · exact hab
        have h1 : tupLe (key a) (key b) :=
          (List.pairwise_cons.1 hs1).1 b hbt
        have h2 : tupLe (key b) (key a) :=
          (List.pairwise_cons.1 hs2).1 a hat2
        exact List.inj_on_of_nodup_map hnd (List.mem_cons_self a t) hbmem
          (tupLe_antisymm h1 h2)
      subst hab
      have hp2 : t.Perm t₂ := hp.cons_inv
      have htail : t = t₂ := by
        refine ih t₂ (List.pairwise_cons.1 hs1).2 (List.pairwise_cons.1 hs2).2
          hp2 ?_
        have := hnd
        rw [List.map_cons, List.nodup_cons] at this
        exact this.2
      rw [htail]

/-- The embedded Python sort is invariant under permutations of the input as
long as the sort keys are pairwise distinct. -/
theorem pySortedBy_perm_invariant {α κ₁ κ₂ : Type} [LinearOrder κ₁]
    [LinearOrder κ₂] (key : α → κ₁ × κ₂) (l₁ l₂ : List α) (hp : l₁.Perm l₂)
    (hnd : (l₁.map key).Nodup) : pySortedBy key l₁ = pySortedBy key l₂ := by
  refine sorted_perm_eq_of_nodup_keys key _ _ (pySortedBy_sorted key l₁)
    (pySortedBy_sorted key l₂) ?_ ?_
  · exact (pySortedBy_perm key l₁).trans (hp.trans (pySortedBy_perm key l₂).symm)
  · exact ((pySortedBy_perm key l₁).map key).nodup_iff.2 hnd

/-- Erasing the period dates of a context keeps its dimensions. -/
theorem find?_contexts_erase (cid : String) :
    ∀ l : List (String × Context),
      (l.map (fun p => (p.1,
          { p.2 with
            startDatetime := none
            endDatetime := none
            instantDatetime := none }))).find? (fun p => p.1 == cid) =
        (l.find? (fun p => p.1 == cid)).map (fun p => (p.1,
          { p.2 with
            startDatetime := none
            endDatetime := none
            instantDatetime := none })) := by
  intro l
  induction l with
  | nil => rfl
  | cons a t ih =>
    obtain ⟨k, c⟩ := a
    by_cases h : (k == cid) = true
    · simp [List.find?, h]
    · simp [List.find?, h, ih]

/-- The context-based classifier ignores period dates. -/
theorem ctxConsOf_erase (m : ModelXbrl) (f : Fact) :
    ctxConsOf (erase_period_dates m) f = ctxConsOf m f := by
  unfold ctxConsOf
  cases hcid : f.contextID with
  | none => rfl
  | some cid =>
    simp only [Option.some_bind]
    unfold lookupContext erase_period_dates
    dsimp only
    rw [find?_contexts_erase cid m.contexts]
    cases m.contexts.find? (fun p => p.1 == cid) with
    | none => rfl
    | some p => rfl

/-- The effective consolidation status ignores period dates. -/
theorem effectiveConsFor_erase (m : ModelXbrl)
    (ci : List (String × String)) (cqp : String) (f : Fact) :
    effectiveConsFor (erase_period_dates m) ci cqp f =
      effectiveConsFor m ci cqp f := by
  unfold effectiveConsFor
  rw [ctxConsOf_erase]

/-- The whole parse walk satisfies the invariant. -/
theorem parse_walk_state_inv (fuel : Nat) (m : ModelXbrl) :
    WalkInv (parse_walk_state fuel m) := by
  unfold parse_walk_state
  apply foldl_preserve WalkInv
  · intro s t hs
    apply foldl_preserve WalkInv
    · intro s2 root hs2
      exact walk_preserves_inv m _ _ _ fuel root [] [] s2 hs2
    · exact hs
  · exact ⟨by simp, by simp [factRowQnames], by simp [factRowQnames]⟩

/-- A document whose single linkrole definition starts with seven digits
whose first six form a target code. -/
def sevenDigitDoc : ModelXbrl :=
  { facts := [], contexts := [],
    linkroles := [{ uri := "u1", roleDef := some "3100105 Balance Sheet",
                    relset := relsetAB }] }

/-- Characterization of `is_target_elr`: it holds precisely when the
stripped text has at least six characters, its first six characters are all
digits, and those six digits form a configured target code. -/
theorem is_target_elr_iff (s : String) :
    is_target_elr s = true ↔
      (6 ≤ (pyStrip s.toList).length ∧
       ((pyStrip s.toList).take 6).all Char.isDigit = true ∧
       TARGET_ELR_CODES.contains
         (String.mk ((pyStrip s.toList).take 6)) = true) := by
  unfold is_target_elr extract_code_from_definition
  by_cases h1 : s = ""
  · subst h1
    simp [pyStrip]
  · rw [if_neg h1]
    dsimp only
    by_cases h2 : 6 ≤ (pyStrip s.toList).length ∧
        ((pyStrip s.toList).take 6).all Char.isDigit = true
    · rw [if_pos h2]
      exact ⟨fun h => ⟨h2.1, h2.2, h⟩, fun h => h.2.2⟩
    · rw [if_neg h2]
      exact ⟨fun h => absurd h (by decide), fun h => absurd ⟨h.1, h.2.1⟩ h2⟩

/-! ## The claims -/

/-- **C1**: the walker's per-fact effective consolidation status is the
context-based classification when that is not `"Unknown"`, otherwise the
presentation-based status of the walk's top-level heading (that is the
definition of `effectiveConsFor`, which `factAccept` compares against
`"Consolidated"`); a fact whose effective status is not `"Consolidated"` is
never accepted, in particular a current-year fact whose context classifies
as `"NonConsolidated"` is never accepted — and every row of the output is
either a heading row or a Fact row carrying status `"Consolidated"`. -/
theorem c1_effective_consolidation_gate :
    (∀ (m : ModelXbrl) (ci : List (String × String)) (qn cqp : String)
        (seen : List String) (f : Fact),
        effectiveConsFor m ci cqp f ≠ "Consolidated" →
        factAccept m ci qn cqp seen f = false) ∧
    (∀ (m : ModelXbrl) (ci : List (String × String)) (qn cqp : String)
        (seen : List String) (f : Fact),
        ctxConsOf m f = "NonConsolidated" →
        factAccept m ci qn cqp seen f = false) ∧
    (∀ (fuel : Nat) (m : ModelXbrl) (r : Row), r ∈ (parse_xbrl fuel m).2 →
        r.consolidationStatus = "Heading" ∨
        r.consolidationStatus = "Consolidated") := by
  have hgen : ∀ (m : ModelXbrl) (ci : List (String × String)) (qn cqp : String)
      (seen : List String) (f : Fact),
      effectiveConsFor m ci cqp f ≠ "Consolidated" →
      factAccept m ci qn cqp seen f = false := by
    intro m ci qn cqp seen f h
    cases hb : factAccept m ci qn cqp seen f
    · rfl
    · exact absurd (factAccept_decomp hb).2.1 h
  refine ⟨hgen, ?_, ?_⟩
  · intro m ci qn cqp seen f h
    apply hgen
    unfold effectiveConsFor
    rw [h, if_pos (by decide)]
    decide
  · intro fuel m r hr
    exact (parse_walk_state_inv fuel m).1 r hr

/-- Witness for C1 at explicit inputs: the non-consolidated current-year
twin fact is rejected by the filter, and a concrete output row carries one
of the two permitted statuses. -/
theorem c1_witness :
    factAccept twoFactDoc [] "t:B" "t:A > t:B" [] factBNonCons = false ∧
    (((parse_xbrl 3 sampleDoc).2.headD fallbackRow).consolidationStatus =
        "Heading" ∨
     ((parse_xbrl 3 sampleDoc).2.headD fallbackRow).consolidationStatus =
        "Consolidated") :=
  ⟨c1_effective_consolidation_gate.2.1 twoFactDoc [] "t:B" "t:A > t:B" []
      factBNonCons (by decide),
   c1_effective_consolidation_gate.2.2 3 sampleDoc _ (by decide)⟩

/-- **C2**: the match-status field of every emitted Fact row is computed by
`mismatch_status_of` from the two classifier results, and that function
satisfies the claim's three-case law: `"Match"` when both classifiers agree
on a non-Unknown value, `"Mismatch"` when both are non-Unknown but differ,
`"Unknown"` when either classifier returns `"Unknown"`. -/
theorem c2_match_status_law :
    (∀ (m : ModelXbrl) (ci : List (String × String)) (f : Fact)
        (dl pl qn clp cqp lrd : String),
        (emitted_fact_row m ci f dl pl qn clp cqp lrd).matchStatus =
          mismatch_status_of (lrStatusOf ci cqp) (ctxConsOf m f)) ∧
    (∀ lr ctx : String,
        ((lr = "Consolidated" ∨ lr = "NonConsolidated") →
         (ctx = "Consolidated" ∨ ctx = "NonConsolidated") → lr = ctx →
         mismatch_status_of lr ctx = "Match") ∧
        ((lr = "Consolidated" ∨ lr = "NonConsolidated") →
         (ctx = "Consolidated" ∨ ctx = "NonConsolidated") → lr ≠ ctx →
         mismatch_status_of lr ctx = "Mismatch") ∧
        ((lr = "Unknown" ∨ ctx = "Unknown") →
         mismatch_status_of lr ctx = "Unknown")) := by
  constructor
  · intro m ci f dl pl qn clp cqp lrd
    simp [emitted_fact_row, fact_row]
  · intro lr ctx
    refine ⟨?_, ?_, ?_⟩
    · intro h1 h2 h3
      rw [mismatch_status_of, if_pos ⟨h1, h2, h3⟩]
    · intro h1 h2 h3
      rw [mismatch_status_of, if_neg (fun hc => h3 hc.2.2), if_pos ⟨h1, h2⟩]
    · intro h
      have h1 : ¬((lr = "Consolidated" ∨ lr = "NonConsolidated") ∧
          (ctx = "Consolidated" ∨ ctx = "NonConsolidated")) := by
        rcases h with h | h <;> subst h
        · rintro ⟨hl, -⟩
          rcases hl with hl | hl <;> simp at hl
        · rintro ⟨-, hc⟩
          rcases hc with hc | hc <;> simp at hc
      rw [mismatch_status_of, if_neg (fun hc => h1 ⟨hc.1, hc.2.1⟩),
        if_neg h1]

/-- Witness for C2 at explicit inputs: the three cases of the law at
concrete classifier values. -/
theorem c2_witness :
    mismatch_status_of "Consolidated" "Consolidated" = "Match" ∧
    mismatch_status_of "NonConsolidated" "Consolidated" = "Mismatch" ∧
    mismatch_status_of "Unknown" "Consolidated" = "Unknown" :=
  ⟨(c2_match_status_law.2 "Consolidated" "Consolidated").1 (Or.inl rfl)
      (Or.inl rfl) rfl,
   (c2_match_status_law.2 "NonConsolidated" "Consolidated").2.1 (Or.inr rfl)
      (Or.inl rfl) (by decide),
   (c2_match_status_law.2 "Unknown" "Consolidated").2.2 (Or.inl rfl)⟩

/-- **C3**: in every output of `parse_xbrl`, no two Fact rows share a
qualified name — the walk-global seen-set admits at most one Fact row per
concept across all target linkroles. -/
theorem c3_fact_rows_unique (fuel : Nat) (m : ModelXbrl) :
    (factRowQnames (parse_xbrl fuel m).2).Nodup :=
  (parse_walk_state_inv fuel m).2.1

/-- **C4, counterexample**: heading emission is per visit, not per concept.
In `twoRoleDoc` the abstract concept `t:A` is the root of both selected
target linkroles, and the output contains **two** Heading rows with qname
`t:A` — refuting "exactly one Heading row with that concept's qualified
name exists in the output". -/
theorem c4_counterexample :
    ((parse_xbrl 3 twoRoleDoc).2.filter fun r =>
        r.qname == "t:A" && r.consolidationStatus == "Heading").length = 2 ∧
    conceptA.isAbstract = true ∧
    twoRoleDoc.linkroles.map (fun lr => lr.relset.roots.map (·.qname)) =
      [["t:A"], ["t:A"]] :=
  ⟨by decide, rfl, rfl⟩

/-- **C4, amended**: whenever the walker visits an abstract concept it
unconditionally emits a Heading row for it, immediately and before anything
produced by the visit's fact scan or descendants — whether or not any
descendant produces a fact value.  Hence an abstract concept reachable `n`
times (via several roots, paths, or target linkroles) contributes `n`
Heading rows, and "exactly one" holds only for concepts visited exactly
once. -/
theorem c4_amended_heading_per_visit (fuel : Nat) (m : ModelXbrl)
    (relset : RelSet) (concept : Concept) (path qnamePath : List String)
    (lrd : String) (ci : List (String × String)) (st : WalkState)
    (h : concept.isAbstract = true) :
    ∃ tail,
      (output_fact_with_hierarchy (fuel + 1) m relset concept path qnamePath
        lrd ci st).rows =
      st.rows ++ heading_row (node_default_label concept)
        (dictGetD st.preferredLabelDict concept.qname
          (node_default_label concept))
        concept.qname
        (String.intercalate " > " (path ++ [dictGetD st.preferredLabelDict
          concept.qname (node_default_label concept)]))
        (String.intercalate " > " (qnamePath ++ [concept.qname])) lrd
        "Heading" "" :: tail := by
  simp only [output_fact_with_hierarchy, h, if_true, append_fact_row]
  obtain ⟨t2, ht2⟩ := occf_rows_mono m ci concept.qname
    (node_default_label concept)
    (dictGetD st.preferredLabelDict concept.qname (node_default_label concept))
    (String.intercalate " > " (path ++ [dictGetD st.preferredLabelDict
      concept.qname (node_default_label concept)]))
    (String.intercalate " > " (qnamePath ++ [concept.qname])) lrd
    st.seenQnames
    (st.rows ++ [heading_row (node_default_label concept)
      (dictGetD st.preferredLabelDict concept.qname (node_default_label concept))
      concept.qname
      (String.intercalate " > " (path ++ [dictGetD st.preferredLabelDict
        concept.qname (node_default_label concept)]))
      (String.intercalate " > " (qnamePath ++ [concept.qname])) lrd
      "Heading" ""])
  apply foldl_preserve (fun s : WalkState => ∃ tail, s.rows =
    st.rows ++ heading_row (node_default_label concept)
      (dictGetD st.preferredLabelDict concept.qname (node_default_label concept))
      concept.qname
      (String.intercalate " > " (path ++ [dictGetD st.preferredLabelDict
        concept.qname (node_default_label concept)]))
      (String.intercalate " > " (qnamePath ++ [concept.qname])) lrd
      "Heading" "" :: tail)
  · intro s r hs
    obtain ⟨t3, ht3⟩ := hs
    obtain ⟨t4, ht4⟩ := walk_rows_mono m relset lrd ci fuel r.toConcept
      (path ++ [dictGetD st.preferredLabelDict concept.qname
        (node_default_label concept)])
      (qnamePath ++ [concept.qname])
      ({ s with preferredLabelDict := dictSet s.preferredLabelDict r.toConcept.qname (child_label_of r.toConcept r.preferredLabelRole) })
    refine ⟨t3 ++ t4, ?_⟩
    dsimp only at ht4 ⊢
    rw [ht4, ht3]
    simp [List.append_assoc]
  · refine ⟨t2, ?_⟩
    dsimp only
    rw [ht2]
    simp [List.append_assoc]

/-- Witness for C4 (amended) at an explicit input: the walk of the abstract
root `t:A` of `sampleDoc` emits its Heading row first. -/
theorem c4_amended_witness :
    ∃ tail,
      (output_fact_with_hierarchy 2 sampleDoc relsetAB conceptA [] []
        "310010 BS" [] ⟨[], [], []⟩).rows =
      ([] : List Row) ++ heading_row "t:A" "t:A" "t:A" "t:A" "t:A"
        "310010 BS" "Heading" "" :: tail :=
  c4_amended_heading_per_visit 1 sampleDoc relsetAB conceptA [] []
    "310010 BS" [] ⟨[], [], []⟩ rfl

/-- **C5**: a fact whose context identifier does not begin with
`CurrentYearDuration` or `CurrentYearInstant` is never accepted by the fact
filter, regardless of its consolidation status; and the filter is the sole
period-selection criterion — erasing every period date of every context
changes no acceptance decision. -/
theorem c5_current_year_prefix_gate :
    (∀ (m : ModelXbrl) (ci : List (String × String)) (qn cqp : String)
        (seen : List String) (f : Fact),
        ¬(pyStartsWith (f.contextID.getD "") "CurrentYearDuration" = true ∨
          pyStartsWith (f.contextID.getD "") "CurrentYearInstant" = true) →
        factAccept m ci qn cqp seen f = false) ∧
    (∀ (m : ModelXbrl) (ci : List (String × String)) (qn cqp : String)
        (seen : List String) (f : Fact),
        factAccept (erase_period_dates m) ci qn cqp seen f =
          factAccept m ci qn cqp seen f) := by
  constructor
  · intro m ci qn cqp seen f h
    cases hb : factAccept m ci qn cqp seen f
    · rfl
    · exact absurd (factAccept_decomp hb).2.2.1 h
  · intro m ci qn cqp seen f
    unfold factAccept
    rw [effectiveConsFor_erase]

/-- Witness for C5 at explicit inputs: the prior-year consolidated fact is
rejected, and erasing dates does not change the accepted consolidated
fact's decision. -/
theorem c5_witness :
    factAccept sampleDoc [] "t:B" "t:A > t:B" [] factPriorYear = false ∧
    factAccept (erase_period_dates sampleDoc) [] "t:B" "t:A > t:B" []
        factBCons =
      factAccept sampleDoc [] "t:B" "t:A > t:B" [] factBCons :=
  ⟨c5_current_year_prefix_gate.1 sampleDoc [] "t:B" "t:A > t:B" []
      factPriorYear (by decide),
   c5_current_year_prefix_gate.2 sampleDoc [] "t:B" "t:A > t:B" [] factBCons⟩

/-- **C6, counterexample**: the definition `"3100105 Balance Sheet"` does
not start with a run of exactly six digits (its leading digit run has
length 7), yet the linkrole carrying it **is** selected as a target — its
extracted code is the first six digits `"310010"`, which is in the target
set.  This refutes the claimed "if and only if … starts with exactly 6
digits" (the regex `^(\d{6})` never looks at the seventh character). -/
theorem c6_counterexample :
    strip_xhtml (some "3100105 Balance Sheet") = "3100105 Balance Sheet" ∧
    ¬ starts_with_exactly_six_digits "3100105 Balance Sheet" ∧
    is_target_elr "3100105 Balance Sheet" = true ∧
    (targetsOf sevenDigitDoc).map (fun t => t.1) = ["310010"] ∧
    ((parse_xbrl 2 sevenDigitDoc).2.filter fun r =>
        r.consolidationStatus == "Heading").length = 1 :=
  ⟨by decide,
   (by decide : ¬ leading_digit_run "3100105 Balance Sheet" = 6),
   by decide, by decide, by decide⟩

/-- **C6, amended**: a linkrole is selected as a target if and only if,
after stripping markup and HTML entities from its definition, the stripped
text has at least six leading characters that are all digits and those
**first six** digits form a code in the configured target set.  (A seventh
digit may follow: the leading digit run need not have length exactly 6;
fewer than six leading digits never select.) -/
theorem c6_amended_selection_iff (lr : Linkrole) :
    is_target_elr (strip_xhtml lr.roleDef) = true ↔
      (6 ≤ (pyStrip (strip_xhtml lr.roleDef).toList).length ∧
       ((pyStrip (strip_xhtml lr.roleDef).toList).take 6).all
         Char.isDigit = true ∧
       TARGET_ELR_CODES.contains
         (String.mk ((pyStrip (strip_xhtml lr.roleDef).toList).take 6)) =
         true) :=
  is_target_elr_iff (strip_xhtml lr.roleDef)

/-- **C7**: rows appear in a stable order — targets are processed in
ascending `(code, definition)` order, the roots of a linkrole appear in
ascending `(minimum outgoing-arc order, qname)` order, the children of
every node are visited in ascending `(arc order, child qname)` order; and
the embedded Python sort is independent of the input enumeration order
whenever the sort keys are pairwise distinct. -/
theorem c7_stable_ordering :
    (∀ m : ModelXbrl, (sortedTargetsOf m).Pairwise fun a b =>
        tupLe (targetKey a) (targetKey b)) ∧
    (∀ relset : RelSet, (sortedRoots relset).Pairwise fun a b =>
        tupLe (root_order_key relset a) (root_order_key relset b)) ∧
    (∀ (relset : RelSet) (qn : String),
        (iter_children_ordered relset qn).Pairwise fun a b =>
        tupLe (childOrderKey a) (childOrderKey b)) ∧
    (∀ (α κ₁ κ₂ : Type) (_i1 : LinearOrder κ₁) (_i2 : LinearOrder κ₂)
        (key : α → κ₁ × κ₂) (l₁ l₂ : List α), l₁.Perm l₂ →
        (l₁.map key).Nodup → pySortedBy key l₁ = pySortedBy key l₂) := by
  refine ⟨?_, ?_, ?_, ?_⟩
  · intro m
    exact pySortedBy_sorted targetKey (targetsOf m)
  · intro relset
    exact pySortedBy_sorted (root_order_key relset) relset.roots
  · intro relset qn
    exact pySortedBy_sorted childOrderKey _
  · intro α κ₁ κ₂ i1 i2 key l₁ l₂ hp hnd
    exact @pySortedBy_perm_invariant α κ₁ κ₂ i1 i2 key l₁ l₂ hp hnd

/-- Witness for C7 at an explicit input: two enumerations of the same
two-element list sort identically. -/
theorem c7_witness :
    pySortedBy (fun x : Nat × Nat => x) [(2, 0), (1, 0)] =
      pySortedBy (fun x : Nat × Nat => x) [(1, 0), (2, 0)] :=
  c7_stable_ordering.2.2.2 (Nat × Nat) Nat Nat inferInstance inferInstance
    (fun x => x) [(2, 0), (1, 0)] [(1, 0), (2, 0)] (by decide) (by decide)

/-- **C8**: `parse_xbrl` is a pure function of the loaded document model
(with its fixed enumeration orders) — any two runs on the same model yield
the same row sequence; the embedding has no hidden state. -/
theorem c8_determinism (fuel : Nat) (m : ModelXbrl)
    (r₁ r₂ : MetaInfo × List Row) (h₁ : r₁ = parse_xbrl fuel m)
    (h₂ : r₂ = parse_xbrl fuel m) : r₁.2 = r₂.2 := by
  rw [h₁, h₂]

/-- Witness for C8 at an explicit input. -/
theorem c8_witness :
    (parse_xbrl 3 sampleDoc).2 = (parse_xbrl 3 sampleDoc).2 :=
  c8_determinism 3 sampleDoc _ _ rfl rfl

/-- **C9**: when no linkrole of the document is selected as a target,
`parse_xbrl` returns the empty row sequence (and, being a total function,
raises nothing). -/
theorem c9_no_targets_empty_rows (fuel : Nat) (m : ModelXbrl)
    (h : ∀ lr ∈ m.linkroles, is_target_elr (strip_xhtml lr.roleDef) = false) :
    (parse_xbrl fuel m).2 = [] := by
  have htargets : targetsOf m = [] := by
    unfold targetsOf
    rw [List.filterMap_eq_nil_iff]
    intro lr hlr
    simp [h lr hlr]
  show (parse_walk_state fuel m).rows = []
  unfold parse_walk_state sortedTargetsOf
  rw [htargets]
  rfl

/-- Witness for C9 at an explicit input: a document whose only linkrole
carries a non-target code yields no rows. -/
theorem c9_witness : (parse_xbrl 3 noTargetDoc).2 = [] :=
  c9_no_targets_empty_rows 3 noTargetDoc (by decide)

/-- **C10**: the context-based classifier is total over missing contexts —
when a fact's context identifier is absent from the document's context map
the classifier returns `"Unknown"` (it does not fail), and the effective
status falls through to the presentation-based reconciliation value. -/
theorem c10_missing_context_is_unknown (m : ModelXbrl)
    (ci : List (String × String)) (cqp : String) (f : Fact) (cid : String)
    (h1 : f.contextID = some cid) (h2 : lookupContext m cid = none) :
    ctxConsOf m f = "Unknown" ∧
    effectiveConsFor m ci cqp f = lrStatusOf ci cqp := by
  have hc : ctxConsOf m f = "Unknown" := by
    unfold ctxConsOf
    rw [h1]
    simp only [Option.some_bind, h2]
    rfl
  refine ⟨hc, ?_⟩
  simp [effectiveConsFor, hc]

/-- Witness for C10 at an explicit input: the orphan fact's context id is
absent from `sampleDoc`, and the classifier yields `"Unknown"`. -/
theorem c10_witness :
    ctxConsOf sampleDoc factOrphan = "Unknown" ∧
    effectiveConsFor sampleDoc [] "t:A > t:B" factOrphan =
      lrStatusOf [] "t:A > t:B" :=
  c10_missing_context_is_unknown sampleDoc [] "t:A > t:B" factOrphan
    "CurrentYearInstant_Missing" rfl (by decide)

end ArelleTools
